import Mathlib

set_option maxRecDepth 8192

/-!
Verification of the geoip-server client-IP resolver and lookup façade.

The definitions below are a shallow embedding of the Go source:
  * `getClientIP`, `isPrivateIP`, `isValidIP`, `isValidPublicIP` from the
    service handler file (the version that consults the CDN headers),
  * `NewGeoIPResponse`, `AddASNInformation` from the response-helper file,
  * the `LookupIP` / `GetClientIP` gin handlers,
  * the parts of Go's standard `net` package the code calls:
    `net.ParseIP` (Go 1.21, i.e. `netip.ParseAddr` semantics with zones
    rejected), `net.ParseCIDR`, `IPNet.Contains`, and the `strings`
    helpers `Split`, `TrimSpace`, `Trim`, `HasPrefix`, `TrimPrefix`.

Machine integers are modelled as `Nat` (all byte values are produced
below bounds, proved where needed).  Strings are processed at the level
of `List Char`; this agrees with Go's byte-level processing on all
inputs relevant here because every delimiter and prefix involved is
ASCII.  Diagnostic `fmt.Printf` logging in the source has no effect on
any returned value and is omitted.
-/

/-! ## Go `strings` helpers -/

/-- `strings.Split` with a one-character separator, on character lists:
splitting the empty input yields `[[]]`, adjacent separators yield empty
fields, exactly as in Go. -/
def splitChar (sep : Char) : List Char → List (List Char)
  | [] => [[]]
  | c :: cs =>
    if c = sep then [] :: splitChar sep cs
    else
      match splitChar sep cs with
      | h :: t => (c :: h) :: t
      | [] => [[c]]

/-- `strings.Split(s, sep)` for a one-character separator. -/
def goSplit (s : String) (sep : Char) : List String :=
  (splitChar sep s.toList).map String.mk

/-- `unicode.IsSpace`: the Unicode white-space code points recognised by
Go's `strings.TrimSpace`. -/
def goIsSpace (c : Char) : Bool :=
  let n := c.toNat
  n = 9 ∨ n = 10 ∨ n = 11 ∨ n = 12 ∨ n = 13 ∨ n = 32 ∨
  n = 0x85 ∨ n = 0xA0 ∨ n = 0x1680 ∨ (0x2000 ≤ n ∧ n ≤ 0x200A) ∨
  n = 0x2028 ∨ n = 0x2029 ∨ n = 0x202F ∨ n = 0x205F ∨ n = 0x3000

/-- `strings.TrimSpace`. -/
def trimSpace (s : String) : String :=
  String.mk (((s.toList.dropWhile goIsSpace).reverse.dropWhile goIsSpace).reverse)

/-- `strings.Trim(s, cutset)`: remove all leading and trailing characters
contained in `cutset`. -/
def goTrim (s : String) (cutset : String) : String :=
  let inCut := fun c => cutset.toList.contains c
  String.mk (((s.toList.dropWhile inCut).reverse.dropWhile inCut).reverse)

/-- `strings.HasPrefix`. -/
def goHasPfx (s p : String) : Bool :=
  p.toList.isPrefixOf s.toList

/-- `strings.TrimPrefix`. -/
def goTrimPfx (s p : String) : String :=
  if goHasPfx s p then String.mk (s.toList.drop p.toList.length) else s

/-! ## Go `net.ParseIP` (Go 1.21 / `netip.ParseAddr` semantics)

`net.ParseIP` returns a 16-byte address (IPv4 results in 4-in-6 mapped
form, as `Addr.As16` produces); we model an address as a `List Nat` of
16 bytes. -/

/-- One decimal IPv4 field per `netip.parseIPv4Fields`: non-empty, all
digits, value at most 255, and no leading zero (a second digit after an
initial `0` is rejected). -/
def parseV4Field (f : List Char) : Option Nat :=
  if f ≠ [] ∧ f.all Char.isDigit ∧ ¬(f.length > 1 ∧ f.headD 'x' = '0') then
    let v := f.foldl (fun a c => a * 10 + (c.toNat - 48)) 0
    if v ≤ 255 then some v else none
  else none

/-- `netip.parseIPv4`: exactly four dot-separated decimal fields. -/
def parseIPv4 (s : String) : Option (List Nat) :=
  match (splitChar '.' s.toList).map parseV4Field with
  | [some a, some b, some c, some d] => some [a, b, c, d]
  | _ => none

/-- Value of a hexadecimal digit, if any. -/
def hexVal (c : Char) : Option Nat :=
  if '0' ≤ c ∧ c ≤ '9' then some (c.toNat - 48)
  else if 'a' ≤ c ∧ c ≤ 'f' then some (c.toNat - 97 + 10)
  else if 'A' ≤ c ∧ c ≤ 'F' then some (c.toNat - 65 + 10)
  else none

/-- The loop of `netip.parseIPv6`: `acc` is the list of bytes written so
far (Go's `ip[0:i]`, so `acc.length` is Go's `i`), `ell` is the byte
index of the `::` marker if one was seen.  Returns the final bytes,
marker, and nothing when the loop errors.  `fuel` bounds the recursion;
each iteration consumes at least one input character. -/
def v6loop : Nat → List Char → List Nat → Option Nat →
    Option (List Nat × Option Nat)
  | 0, _, _, _ => none
  | fuel + 1, s, acc, ell =>
    if acc.length ≥ 16 then
      -- loop condition `i < 16` failed; Go then requires the input consumed
      if s = [] then some (acc, ell) else none
    else
      let run := s.takeWhile (fun c => (hexVal c).isSome)
      let rest := s.dropWhile (fun c => (hexVal c).isSome)
      if run = [] then none
      else
        let accv := run.foldl (fun a c => a * 16 + (hexVal c).getD 0) 0
        if accv > 0xFFFF then none
        else if rest.head? = some '.' then
          -- trailing embedded IPv4, parsed from the current remainder `s`
          if ell = none ∧ acc.length ≠ 12 then none
          else if acc.length + 4 > 16 then none
          else
            match parseIPv4 (String.mk s) with
            | none => none
            | some ip4 => some (acc ++ ip4, ell)
        else
          match rest with
          | [] => some (acc ++ [accv / 256, accv % 256], ell)
          | c0 :: s1 =>
            if c0 = ':' then
              if s1 = [] then none
              else
                let acc1 := acc ++ [accv / 256, accv % 256]
                match s1 with
                | c1 :: s2 =>
                  if c1 = ':' then
                    if ell ≠ none then none
                    else if s2 = [] then some (acc1, some acc1.length)
                    else v6loop fuel s2 acc1 (some acc1.length)
                  else v6loop fuel s1 acc1 ell
                | [] => none
            else none

/-- Post-loop processing of `netip.parseIPv6`: expand the `::` marker to
fill 16 bytes, reject a marker that expands to nothing. -/
def v6finish : Option (List Nat × Option Nat) → Option (List Nat)
  | none => none
  | some (acc, ell) =>
    if acc.length < 16 then
      match ell with
      | none => none
      | some e => some (acc.take e ++ List.replicate (16 - acc.length) 0 ++ acc.drop e)
    else
      match ell with
      | some _ => none
      | none => some acc

/-- `netip.parseIPv6` (zones are handled in `parseIP`: any `%` makes the
loop fail, and Go's `net.ParseIP` rejects every zoned address). -/
def parseIPv6 (s : String) : Option (List Nat) :=
  match s.toList with
  | ':' :: ':' :: t =>
    if t = [] then some (List.replicate 16 0)
    else v6finish (v6loop t.length t [] (some 0))
  | l => v6finish (v6loop l.length l [] none)

/-- 4-byte to 16-byte 4-in-6 mapping (`Addr.As16` on an IPv4 address). -/
def v4InV6 (b : List Nat) : List Nat :=
  List.replicate 10 0 ++ [255, 255] ++ b

/-- The format scan of `netip.ParseAddr`: the first `.`, `:` or `%`
decides between IPv4, IPv6 and an immediate error. -/
def ipFormat : List Char → Option Bool
  | [] => none
  | c :: cs =>
    if c = '.' then some true
    else if c = ':' then some false
    else if c = '%' then none
    else ipFormat cs

/-- `net.ParseIP` (Go 1.21): returns the 16-byte form of the address, or
`none` for anything unparseable (including zoned addresses). -/
def parseIP (s : String) : Option (List Nat) :=
  match ipFormat s.toList with
  | some true => (parseIPv4 s).map v4InV6
  | some false => parseIPv6 s
  | none => none

/-- `IP.To4`: the 4-byte form when the address is IPv4 or 4-in-6 mapped. -/
def to4 (ip : List Nat) : Option (List Nat) :=
  if ip.length = 4 then some ip
  else if ip.length = 16 ∧ ip.take 12 = v4InV6 [] then some (ip.drop 12)
  else none

example : parseIP "8.8.8.8" = some [0,0,0,0,0,0,0,0,0,0,255,255,8,8,8,8] := by decide
example : parseIP "10.0.0.1" = some [0,0,0,0,0,0,0,0,0,0,255,255,10,0,0,1] := by decide
example : parseIP "::1" = some [0,0,0,0,0,0,0,0,0,0,0,0,0,0,0,1] := by decide
example : parseIP "fe80::1" = some [0xfe,0x80,0,0,0,0,0,0,0,0,0,0,0,0,0,1] := by decide
example : parseIP "2001:4860:4860::8888" =
    some [0x20,0x01,0x48,0x60,0x48,0x60,0,0,0,0,0,0,0,0,0x88,0x88] := by decide
example : parseIP "::ffff:1.2.3.4" = some [0,0,0,0,0,0,0,0,0,0,255,255,1,2,3,4] := by decide
example : parseIP "1:2:3:4:5:6:7:8" = some [0,1,0,2,0,3,0,4,0,5,0,6,0,7,0,8] := by decide
example : parseIP "" = none := by decide
example : parseIP "256.1.1.1" = none := by decide
example : parseIP "01.2.3.4" = none := by decide
example : parseIP "1.2.3" = none := by decide
example : parseIP "1.2.3.4.5" = none := by decide
example : parseIP "fe80::1%eth0" = none := by decide
example : parseIP "1:2:3:4:5:6:7:8:9" = none := by decide
example : parseIP "1:2:3:4:5:6:7:8::" = none := by decide
example : parseIP "::" = some (List.replicate 16 0) := by decide
example : parseIP ":" = none := by decide
example : parseIP "not-an-ip" = none := by decide
example : parseIP "1::2::3" = none := by decide
example : parseIP "12345::" = none := by decide
example : parseIP "::00001" = some [0,0,0,0,0,0,0,0,0,0,0,0,0,0,0,1] := by decide

/-! ## Go `net.ParseCIDR` and `IPNet.Contains` -/

/-- A parsed network: the masked network bytes and the mask bytes (both
4 bytes for an IPv4 network, 16 for IPv6), as `net.ParseCIDR` builds. -/
structure IPNetM where
  addr : List Nat
  mask : List Nat
deriving DecidableEq

/-- `net.CIDRMask(ones, bits)` as its byte list. -/
def cidrMaskGo : Nat → Nat → List Nat
  | 0, _ => []
  | l + 1, n =>
    if n ≥ 8 then 255 :: cidrMaskGo l (n - 8)
    else (255 - (255 >>> n)) :: cidrMaskGo l 0

/-- `net.CIDRMask(ones, bits)`: `bits/8` mask bytes. -/
def cidrMask (ones bits : Nat) : List Nat :=
  cidrMaskGo (bits / 8) ones

/-- `IP.Mask` for equal-length ip and mask: byte-wise AND. -/
def maskIP (ip m : List Nat) : List Nat :=
  List.zipWith (fun a b => a &&& b) ip m

/-- Split a character list at the first `/`. -/
def breakSlash : List Char → Option (List Char × List Char)
  | [] => none
  | c :: cs =>
    if c = '/' then some ([], cs)
    else (breakSlash cs).map (fun p => (c :: p.1, p.2))

/-- Go's `dtoi` as used by `ParseCIDR` on the mask size: the whole
string must be consumed, so it must be non-empty and all digits (the
decimal-overflow cutoff in `dtoi` only rejects values that the
`n > 8*iplen` bound rejects anyway). -/
def dtoiFull (l : List Char) : Option Nat :=
  if l ≠ [] ∧ l.all Char.isDigit then
    some (l.foldl (fun a c => a * 10 + (c.toNat - 48)) 0)
  else none

/-- `net.ParseCIDR`: address part before the first `/` (IPv4 parse first,
IPv6 otherwise), decimal mask size bounded by the bit width; the stored
network address is pre-masked. -/
def parseCIDR (s : String) : Option IPNetM :=
  match breakSlash s.toList with
  | none => none
  | some (addr, mask) =>
    let parsed : Option (List Nat × Nat) :=
      match parseIPv4 (String.mk addr) with
      | some ip4 => some (ip4, 32)
      | none =>
        match parseIPv6 (String.mk addr) with
        | some ip6 => some (ip6, 128)
        | none => none
    match parsed with
    | none => none
    | some (ip, bits) =>
      match dtoiFull mask with
      | none => none
      | some n =>
        if n ≤ bits then
          let m := cidrMask n bits
          some ⟨maskIP ip m, m⟩
        else none

/-- Byte-wise masked comparison, the loop of `IPNet.Contains`. -/
def maskedEq : List Nat → List Nat → List Nat → Bool
  | [], [], _ => true
  | a :: as, b :: bs, m :: ms => (a &&& m == b &&& m) && maskedEq as bs ms
  | _, _, _ => false

/-- `networkNumberAndMask`: normalise the network address to 4 bytes when
it is 4-in-6 mapped, adapting a 16-byte mask accordingly. -/
def networkNumberAndMask (net : IPNetM) : Option (List Nat × List Nat) :=
  let nn :=
    match to4 net.addr with
    | some x => some x
    | none => if net.addr.length = 16 then some net.addr else none
  match nn with
  | none => none
  | some ip =>
    if net.mask.length = 4 then
      if ip.length = 4 then some (ip, net.mask) else none
    else if net.mask.length = 16 then
      if ip.length = 4 then some (ip, net.mask.drop 12) else some (ip, net.mask)
    else none

/-- `IPNet.Contains`. -/
def contains (net : IPNetM) (ip : List Nat) : Bool :=
  match networkNumberAndMask net with
  | none => false
  | some (nn, m) =>
    let ip4 :=
      match to4 ip with
      | some x => x
      | none => ip
    ip4.length == nn.length && maskedEq nn ip4 m

/-! ## The service's IP classification helpers -/

/-- The `privateRanges` table of `isPrivateIP`, verbatim. -/
def privateRanges : List String :=
  ["10.0.0.0/8",
   "172.16.0.0/12",
   "192.168.0.0/16",
   "127.0.0.0/8",    -- loopback
   "169.254.0.0/16", -- link-local
   "::1/128",        -- IPv6 loopback
   "fc00::/7",       -- IPv6 unique local
   "fe80::/10"]      -- IPv6 link-local

/-- `isPrivateIP`: parse the address, then scan the CIDR table; a range
that fails to parse is skipped (`continue` in the source). -/
def isPrivateIP (ipStr : String) : Bool :=
  match parseIP ipStr with
  | none => false
  | some ip =>
    privateRanges.any fun cidr =>
      match parseCIDR cidr with
      | none => false
      | some network => contains network ip

/-- `isValidIP`. -/
def isValidIP (ipStr : String) : Bool :=
  (parseIP ipStr).isSome

/-- `isValidPublicIP`. -/
def isValidPublicIP (ipStr : String) : Bool :=
  isValidIP ipStr && !isPrivateIP ipStr

example : parseCIDR "10.0.0.0/8" = some ⟨[10,0,0,0], [255,0,0,0]⟩ := by decide
example : parseCIDR "172.16.0.0/12" = some ⟨[172,16,0,0], [255,240,0,0]⟩ := by decide
example : parseCIDR "fc00::/7" =
    some ⟨252 :: List.replicate 15 0, 254 :: List.replicate 15 0⟩ := by decide
example : isPrivateIP "169.254.0.1" = true := by decide
example : isPrivateIP "127.0.0.1" = true := by decide
example : isPrivateIP "fe80::1" = true := by decide
example : isPrivateIP "fc00::1" = true := by decide
example : isPrivateIP "8.8.8.8" = false := by decide
example : isPrivateIP "2001:4860:4860::8888" = false := by decide
example : isPrivateIP "192.168.1.1" = true := by decide
example : isPrivateIP "172.31.255.255" = true := by decide
example : isPrivateIP "172.32.0.0" = false := by decide
example : isValidPublicIP "::ffff:10.0.0.1" = false := by decide
example : isValidPublicIP "203.0.113.7" = true := by decide

/-! ## The client address resolver (`getClientIP`) -/

/-- An inbound request as the resolver sees it: `header` is gin's
`c.GetHeader` (empty string for an absent header), `remoteAddr` is the
string gin's `c.ClientIP()` fallback produces from the transport-layer
peer address. -/
structure Request where
  header : String → String
  remoteAddr : String

/-- The `X-Forwarded-For` loop: trim each entry, return the first valid
public IP. -/
def xffScan : List String → Option String
  | [] => none
  | ip :: rest =>
    let cleanIP := trimSpace ip
    if isValidPublicIP cleanIP then some cleanIP else xffScan rest

/-- The whole `X-Forwarded-For` block: scan for a public entry, else fall
back to the first entry when it is at least a syntactically valid IP;
`none` means the block falls through to the next header. -/
def xffLookup (xForwardedFor : String) : Option String :=
  if xForwardedFor != "" then
    let ips := goSplit xForwardedFor ','
    match xffScan ips with
    | some ip => some ip
    | none =>
      match ips with
      | firstRaw :: _ =>
        let firstIP := trimSpace firstRaw
        if isValidIP firstIP then some firstIP else none
      | [] => none
  else none

/-- The `Forwarded` (RFC 7239) loop: over semicolon-separated parts, take
those starting (after trimming) with `for=`, strip the prefix, then
surrounding double quotes, then square brackets, and return the first
valid public IP. -/
def forwardedScan : List String → Option String
  | [] => none
  | part :: rest =>
    if goHasPfx (trimSpace part) "for=" then
      let forValue := goTrimPfx (trimSpace part) "for="
      let forValue := goTrim forValue "\""
      let forValue := goTrim forValue "[]"
      if isValidPublicIP forValue then some forValue else forwardedScan rest
    else forwardedScan rest

/-- The whole `Forwarded` block. -/
def forwardedLookup (forwarded : String) : Option String :=
  if forwarded != "" then forwardedScan (goSplit forwarded ';') else none

/-- `getClientIP`: the ordered trust policy over forwarding headers.
(The source also reads `CF-IPCountry` between the first and second gate;
its branch body is empty and affects nothing.) -/
def getClientIP (c : Request) : String :=
  let cfConnectingIP := c.header "CF-Connecting-IP"
  if cfConnectingIP != "" && isValidPublicIP cfConnectingIP then cfConnectingIP
  else
    let trueClientIP := c.header "True-Client-IP"
    if trueClientIP != "" && isValidPublicIP trueClientIP then trueClientIP
    else
      let xRealIP := c.header "X-Real-IP"
      if xRealIP != "" && isValidPublicIP xRealIP then xRealIP
      else
        match xffLookup (c.header "X-Forwarded-For") with
        | some ip => ip
        | none =>
          let xForwarded := c.header "X-Forwarded"
          if xForwarded != "" && isValidPublicIP xForwarded then xForwarded
          else
            match forwardedLookup (c.header "Forwarded") with
            | some forValue => forValue
            | none => c.remoteAddr

/-! ## The lookup façade -/

/-- The fields of a `geoip2.City` record the handlers read: `Names["en"]`
and `IsoCode` of country and of each subdivision, plus city, postal and
location data. -/
structure CityRecord where
  countryName : String
  countryIso : String
  cityName : String
  postalCode : String
  latitude : Float
  longitude : Float
  accuracyRadius : Nat
  timeZone : String
  subdivisions : List (String × String)

/-- The fields of a `geoip2.ASN` record the handlers read. -/
structure ASNRecord where
  number : Nat
  org : String

/-- The `GeoIPService` with its readers abstracted to query functions:
`city ip = none` models `cityDB.City` returning an error, `asn ip = none`
models `asnDB.ASN` returning an error, `lookupNetwork ip = some s` models
`asnRawDB.LookupNetwork` succeeding (`err == nil && ok && network != nil`)
with `network.String() = s`, and `asnRawPresent` models `asnRawDB != nil`. -/
structure GeoService where
  city : List Nat → Option CityRecord
  asn : List Nat → Option ASNRecord
  lookupNetwork : List Nat → Option String
  asnRawPresent : Bool

/-- `GeoIPResponse`.  Latitude and longitude are `float64` values that
are only ever copied, never computed with. -/
structure GeoIPResponse where
  IP : String
  Country : String
  CountryCode : String
  Region : String
  RegionCode : String
  City : String
  PostalCode : String
  Latitude : Float
  Longitude : Float
  AccuracyRadius : Nat
  TimeZone : String
  ASN : Nat
  ASNOrg : String
  ASNNetwork : String

/-- `NewGeoIPResponse`: build the base response; fields the Go struct
literal omits (`Region`, `RegionCode`, `ASN`, `ASNOrg`, `ASNNetwork`)
are Go zero values. -/
def NewGeoIPResponse (ipStr : String) (cityRecord : CityRecord) : GeoIPResponse :=
  let response : GeoIPResponse :=
    { IP := ipStr
      Country := cityRecord.countryName
      CountryCode := cityRecord.countryIso
      Region := ""
      RegionCode := ""
      City := cityRecord.cityName
      PostalCode := cityRecord.postalCode
      Latitude := cityRecord.latitude
      Longitude := cityRecord.longitude
      AccuracyRadius := cityRecord.accuracyRadius
      TimeZone := cityRecord.timeZone
      ASN := 0
      ASNOrg := ""
      ASNNetwork := "" }
  match cityRecord.subdivisions with
  | (nm, iso) :: _ => { response with Region := nm, RegionCode := iso }
  | [] => response

/-- `AddASNInformation`: on ASN-reader success set `ASN`/`ASNOrg`, and
additionally `ASNNetwork` when the raw reader is present and its network
lookup succeeds; on ASN-reader error leave the response untouched.  The
`ipStr` argument is only used by the source's diagnostic prints. -/
def AddASNInformation (response : GeoIPResponse) (ip : List Nat) (ipStr : String)
    (g : GeoService) : GeoIPResponse :=
  let _ := ipStr
  match g.asn ip with
  | some asnRecord =>
    let response := { response with ASN := asnRecord.number, ASNOrg := asnRecord.org }
    if g.asnRawPresent then
      match g.lookupNetwork ip with
      | some networkStr => { response with ASNNetwork := networkStr }
      | none => response
    else response
  | none => response

/-- Outcome of a handler: the JSON it writes and the status class. -/
inductive HandlerResult where
  | badRequest (error : String)
  | internalServerError (error : String)
  | ok (response : GeoIPResponse)

/-- The `LookupIP` handler, over the path parameter `ipStr`. -/
def LookupIP (g : GeoService) (ipStr : String) : HandlerResult :=
  if ipStr == "" then .badRequest "IP address is required"
  else
    match parseIP ipStr with
    | none => .badRequest "Invalid IP address format"
    | some ip =>
      match g.city ip with
      | none => .internalServerError "Failed to lookup IP address"
      | some cityRecord =>
        let response := NewGeoIPResponse ipStr cityRecord
        let response := AddASNInformation response ip ipStr g
        .ok response

/-- The `GetClientIP` handler. -/
def GetClientIP (g : GeoService) (c : Request) : HandlerResult :=
  let clientIP := getClientIP c
  match parseIP clientIP with
  | none => .badRequest "Unable to determine client IP"
  | some ip =>
    match g.city ip with
    | none => .internalServerError "Failed to lookup client IP address"
    | some cityRecord =>
      let response := NewGeoIPResponse clientIP cityRecord
      let response := AddASNInformation response ip clientIP g
      .ok response

/-! ## Spec-side definitions and concrete instances -/

/-- "No result" for a single-value header gate, as the spec's trust
policy describes it: the header is absent or not a valid public IP. -/
def noYieldSingle (v : String) : Prop :=
  v = "" ∨ isValidPublicIP v = false

/-- "No result" from the `X-Forwarded-For` step: absent, or no trimmed
entry is a valid public IP and the first entry is not even a valid IP. -/
def xffNoYield (v : String) : Prop :=
  v = "" ∨
    (((goSplit v ',').map trimSpace).find? (fun s => isValidPublicIP s) = none ∧
      ∀ f, ((goSplit v ',').map trimSpace).head? = some f → isValidIP f = false)

/-- The `for=` extraction applied to one semicolon-separated part, as the
source performs it. -/
def extractFor (part : String) : Option String :=
  if goHasPfx (trimSpace part) "for=" then
    some (goTrim (goTrim (goTrimPfx (trimSpace part) "for=") "\"") "[]")
  else none

/-- The candidate values the source's `Forwarded` loop inspects. -/
def forwardedCands (forwarded : String) : List String :=
  (goSplit forwarded ';').filterMap extractFor

/-- Modelled from the spec's words for claim C5 (not from the source):
split the `Forwarded` value into comma-separated forwarded-elements, each
a semicolon-separated parameter list; extract every `for=` parameter,
strip quotes and brackets; return the first occurrence that is a valid
public IP. -/
def specForwardedFor (v : String) : Option String :=
  (((goSplit v ',').map (fun elem => forwardedCands elem)).flatten).find?
    (fun s => isValidPublicIP s)

/-- Modelled from the spec's words for claim C4: the IPv4 private ranges
10.0.0.0/8, 172.16.0.0/12, 192.168.0.0/16, 127.0.0.0/8, 169.254.0.0/16,
expressed arithmetically on the four bytes. -/
def specPrivateV4 (l : List Nat) : Prop :=
  match l with
  | [a, b, _, _] =>
    a = 10 ∨ (a = 172 ∧ 16 ≤ b ∧ b ≤ 31) ∨ (a = 192 ∧ b = 168) ∨
    a = 127 ∨ (a = 169 ∧ b = 254)
  | _ => False

/-- Modelled from the spec's words for claim C4: the IPv6 private ranges
::1/128, fc00::/7, fe80::/10, expressed arithmetically on the bytes. -/
def specPrivateV6 (ip : List Nat) : Prop :=
  ip = List.replicate 15 0 ++ [1] ∨
  (∃ b0 t, ip = b0 :: t ∧ (b0 = 252 ∨ b0 = 253)) ∨
  (∃ b1 t, ip = 254 :: b1 :: t ∧ 128 ≤ b1 ∧ b1 ≤ 191)

/-- Modelled from the spec's words for claim C4: an address is private
exactly when its 4-byte form lies in an IPv4 private range, or it has no
4-byte form and lies in an IPv6 private range. -/
def specPrivate (ip : List Nat) : Prop :=
  (∃ l, to4 ip = some l ∧ specPrivateV4 l) ∨
  (to4 ip = none ∧ specPrivateV6 ip)

/-- Update one header of a request. -/
def setHeader (c : Request) (name v : String) : Request :=
  { c with header := fun m => if m = name then v else c.header m }

/-- A request with no headers set and an unparseable peer address. -/
def reqNoIP : Request :=
  { header := fun _ => "", remoteAddr := "not-an-ip" }

/-- Only `X-Forwarded-For`, holding a private then a public entry. -/
def reqOnlyXFF : Request :=
  { header := fun n => if n = "X-Forwarded-For" then "10.0.0.1, 8.8.8.8" else ""
    remoteAddr := "10.9.9.9" }

/-- Only `Forwarded`, holding two comma-separated forwarded-elements. -/
def reqForwardedComma : Request :=
  { header := fun n => if n = "Forwarded" then "for=10.0.0.1, for=8.8.8.8" else ""
    remoteAddr := "9.9.9.9" }

/-- Only `Forwarded`, one element with a quoted bracketed IPv6 `for=`. -/
def reqForwardedQuoted : Request :=
  { header := fun n =>
      if n = "Forwarded" then "proto=http; for=\"[2001:4860:4860::8888]\"" else ""
    remoteAddr := "10.0.0.9" }

/-- Only the (unconsulted) `Client-IP` header, holding a public IP. -/
def reqClientIPHeader : Request :=
  { header := fun n => if n = "Client-IP" then "8.8.8.8" else ""
    remoteAddr := "203.0.113.7" }

/-- Only `X-Forwarded`, holding a public IP. -/
def reqXForwarded : Request :=
  { header := fun n => if n = "X-Forwarded" then "8.8.8.8" else ""
    remoteAddr := "10.0.0.9" }

/-- A city record for concrete service instances. -/
def sampleCityRecord : CityRecord :=
  { countryName := "United States"
    countryIso := "US"
    cityName := "Mountain View"
    postalCode := "94035"
    latitude := 0.0
    longitude := 0.0
    accuracyRadius := 1000
    timeZone := "America/Los_Angeles"
    subdivisions := [("California", "CA")] }

/-- A service whose city reader always succeeds and whose ASN reader
always fails. -/
def svcNoASN : GeoService :=
  { city := fun _ => some sampleCityRecord
    asn := fun _ => none
    lookupNetwork := fun _ => none
    asnRawPresent := true }

/-- A service whose readers all fail. -/
def svcAllFail : GeoService :=
  { city := fun _ => none
    asn := fun _ => none
    lookupNetwork := fun _ => none
    asnRawPresent := false }

example : getClientIP reqOnlyXFF = "8.8.8.8" := by decide
example : getClientIP reqNoIP = "not-an-ip" := by decide
example : getClientIP reqForwardedComma = "9.9.9.9" := by decide
example : getClientIP reqForwardedQuoted = "2001:4860:4860::8888" := by decide
example : getClientIP reqClientIPHeader = "203.0.113.7" := by decide
example : getClientIP reqXForwarded = "8.8.8.8" := by decide
example : specForwardedFor "for=10.0.0.1, for=8.8.8.8" = some "8.8.8.8" := by decide

/-! ## Basic lemmas about the classifiers and scans -/

theorem validOfPub {v : String} (h : isValidPublicIP v = true) : isValidIP v = true := by
  unfold isValidPublicIP at h
  exact (Bool.and_eq_true _ _ |>.mp h).1

theorem pub_empty : isValidPublicIP "" = false := by decide

theorem gate_false {v : String} (h : noYieldSingle v) :
    (v != "" && isValidPublicIP v) = false := by
  rcases h with rfl | h
  · decide
  · simp [h]

theorem gate_true {v : String} (h1 : v ≠ "") (h2 : isValidPublicIP v = true) :
    (v != "" && isValidPublicIP v) = true := by
  simp [h1, h2]

theorem xffScan_eq (l : List String) :
    xffScan l = (l.map trimSpace).find? (fun s => isValidPublicIP s) := by
  induction l with
  | nil => rfl
  | cons x r ih =>
    by_cases hp : isValidPublicIP (trimSpace x) = true
    · simp [xffScan, hp, List.find?]
    · simp only [Bool.not_eq_true] at hp
      simp [xffScan, hp, List.find?, ih]

theorem forwardedScan_eq (l : List String) :
    forwardedScan l = (l.filterMap extractFor).find? (fun s => isValidPublicIP s) := by
  induction l with
  | nil => rfl
  | cons part r ih =>
    by_cases hpfx : goHasPfx (trimSpace part) "for=" = true
    · have hex : extractFor part =
          some (goTrim (goTrim (goTrimPfx (trimSpace part) "for=") "\"") "[]") := by
        simp [extractFor, hpfx]
      by_cases hp : isValidPublicIP
          (goTrim (goTrim (goTrimPfx (trimSpace part) "for=") "\"") "[]") = true
      · simp [forwardedScan, hpfx, hp, hex, List.filterMap_cons, List.find?]
      · simp only [Bool.not_eq_true] at hp
        simp [forwardedScan, hpfx, hp, hex, List.filterMap_cons, List.find?, ih]
    · have hex : extractFor part = none := by
        simp [extractFor, hpfx]
      simp only [Bool.not_eq_true] at hpfx
      simp [forwardedScan, hpfx, hex, List.filterMap_cons, ih]

theorem splitChar_ne_nil (sep : Char) (l : List Char) : splitChar sep l ≠ [] := by
  induction l with
  | nil => simp [splitChar]
  | cons c cs ih =>
    unfold splitChar
    by_cases h : c = sep
    · simp [h]
    · simp only [h, if_false]
      cases hs : splitChar sep cs with
      | nil => exact absurd hs ih
      | cons a b => simp

theorem goSplit_ne_nil (s : String) (sep : Char) : goSplit s sep ≠ [] := by
  unfold goSplit
  intro h
  exact splitChar_ne_nil sep s.toList (List.map_eq_nil_iff.mp h)

theorem xffLookup_none {v : String} (h : xffNoYield v) : xffLookup v = none := by
  rcases h with rfl | ⟨hfind, hhead⟩
  · rfl
  · unfold xffLookup
    by_cases hv : (v != "") = true
    · simp only [hv, if_true]
      rw [xffScan_eq, hfind]
      obtain ⟨f, rest, hsplit⟩ := List.exists_cons_of_ne_nil (goSplit_ne_nil v ',')
      rw [hsplit]
      have : isValidIP (trimSpace f) = false := by
        apply hhead
        rw [hsplit]
        simp
      simp [this]
    · simp only [Bool.not_eq_true] at hv
      simp [hv]

theorem xffLookup_valid {v ip : String} (h : xffLookup v = some ip) :
    isValidIP ip = true := by
  unfold xffLookup at h
  by_cases hv : (v != "") = true
  · simp only [hv, if_true] at h
    rw [xffScan_eq] at h
    cases hf : ((goSplit v ',').map trimSpace).find? (fun s => isValidPublicIP s) with
    | some e =>
      rw [hf] at h
      cases h
      exact validOfPub (List.find?_some hf)
    | none =>
      rw [hf] at h
      cases hsplit : goSplit v ',' with
      | nil => rw [hsplit] at h; cases h
      | cons f rest =>
        rw [hsplit] at h
        by_cases hval : isValidIP (trimSpace f) = true
        · simp only [hval, if_true] at h
          cases h
          exact hval
        · simp only [Bool.not_eq_true] at hval
          simp [hval] at h
  · simp only [Bool.not_eq_true] at hv
    simp [hv] at h

theorem forwardedLookup_pub {v ip : String} (h : forwardedLookup v = some ip) :
    isValidPublicIP ip = true := by
  unfold forwardedLookup at h
  by_cases hv : (v != "") = true
  · simp only [hv, if_true] at h
    rw [forwardedScan_eq] at h
    exact List.find?_some h
  · simp only [Bool.not_eq_true] at hv
    simp [hv] at h

/-! ## Claim theorems -/

/-- C2: for every valid public IP string `v` and every peer address `p`,
the resolver applied to a request whose only relevant header is
`CF-Connecting-IP` set to `v` returns exactly `v`. -/
theorem claimC2 (v p : String) (h : isValidPublicIP v = true) :
    getClientIP
      { header := fun n => if n = "CF-Connecting-IP" then v else "", remoteAddr := p } = v := by
  have hv : v ≠ "" := by
    rintro rfl
    rw [pub_empty] at h
    cases h
  unfold getClientIP
  simp [gate_true hv h]

/-- C2 witness at `v = "8.8.8.8"`, `p = "10.0.0.5"`. -/
theorem claimC2_witness :
    getClientIP
      { header := fun n => if n = "CF-Connecting-IP" then "8.8.8.8" else ""
        remoteAddr := "10.0.0.5" } = "8.8.8.8" :=
  claimC2 "8.8.8.8" "10.0.0.5" (by decide)

/-- C7: with no relevant header set, the resolver returns the supplied
peer address exactly. -/
theorem claimC7 (p : String) :
    getClientIP { header := fun _ => "", remoteAddr := p } = p := rfl

/-- C9: `AddASNInformation` modifies at most the `ASN`, `ASNOrg` and
`ASNNetwork` fields: every other field of the response is unchanged. -/
theorem claimC9 (response : GeoIPResponse) (ip : List Nat) (ipStr : String)
    (g : GeoService) :
    (AddASNInformation response ip ipStr g).IP = response.IP ∧
    (AddASNInformation response ip ipStr g).Country = response.Country ∧
    (AddASNInformation response ip ipStr g).CountryCode = response.CountryCode ∧
    (AddASNInformation response ip ipStr g).Region = response.Region ∧
    (AddASNInformation response ip ipStr g).RegionCode = response.RegionCode ∧
    (AddASNInformation response ip ipStr g).City = response.City ∧
    (AddASNInformation response ip ipStr g).PostalCode = response.PostalCode ∧
    (AddASNInformation response ip ipStr g).Latitude = response.Latitude ∧
    (AddASNInformation response ip ipStr g).Longitude = response.Longitude ∧
    (AddASNInformation response ip ipStr g).AccuracyRadius = response.AccuracyRadius ∧
    (AddASNInformation response ip ipStr g).TimeZone = response.TimeZone := by
  unfold AddASNInformation
  cases g.asn ip with
  | none => simp
  | some asnRecord =>
    cases g.asnRawPresent with
    | false => simp
    | true =>
      cases g.lookupNetwork ip with
      | none => simp
      | some networkStr => simp

/-- C8: when the location lookup succeeds and the ASN lookup fails, the
lookup handler still succeeds, returning the base merged record whose
ASN fields hold the Go zero values. -/
theorem claimC8 (g : GeoService) (ipStr : String) (ip : List Nat)
    (cityRecord : CityRecord)
    (hip : parseIP ipStr = some ip) (hcity : g.city ip = some cityRecord)
    (hasn : g.asn ip = none) :
    LookupIP g ipStr = .ok (NewGeoIPResponse ipStr cityRecord) ∧
    (NewGeoIPResponse ipStr cityRecord).ASN = 0 ∧
    (NewGeoIPResponse ipStr cityRecord).ASNOrg = "" ∧
    (NewGeoIPResponse ipStr cityRecord).ASNNetwork = "" := by
  have hne : ipStr ≠ "" := by
    rintro rfl
    rw [show parseIP "" = none from rfl] at hip
    cases hip
  refine ⟨?_, ?_, ?_, ?_⟩
  · unfold LookupIP
    rw [if_neg (by simpa using hne), hip]
    dsimp only
    rw [hcity]
    dsimp only
    unfold AddASNInformation
    rw [hasn]
  all_goals
    unfold NewGeoIPResponse
    rcases cityRecord.subdivisions with _ | ⟨⟨nm, iso⟩, _⟩ <;> simp

/-- C8 witness: a service whose ASN reader always fails, queried at
`8.8.8.8`. -/
theorem claimC8_witness :
    LookupIP svcNoASN "8.8.8.8" = .ok (NewGeoIPResponse "8.8.8.8" sampleCityRecord) ∧
    (NewGeoIPResponse "8.8.8.8" sampleCityRecord).ASN = 0 ∧
    (NewGeoIPResponse "8.8.8.8" sampleCityRecord).ASNOrg = "" ∧
    (NewGeoIPResponse "8.8.8.8" sampleCityRecord).ASNNetwork = "" :=
  claimC8 svcNoASN "8.8.8.8" [0,0,0,0,0,0,0,0,0,0,255,255,8,8,8,8] sampleCityRecord
    (by decide) rfl rfl

/-- C10: whenever the resolver's result does not parse as an IP address,
the client-IP endpoint answers 400, and its outcome is the same for
every geo service — neither reader is consulted. -/
theorem claimC10 (g g2 : GeoService) (c : Request)
    (h : parseIP (getClientIP c) = none) :
    GetClientIP g c = .badRequest "Unable to determine client IP" ∧
    GetClientIP g c = GetClientIP g2 c := by
  unfold GetClientIP
  dsimp only
  rw [h]
  exact ⟨rfl, rfl⟩

/-- C10 witness: the all-empty-headers request with unparseable peer
address, against two different services. -/
theorem claimC10_witness :
    GetClientIP svcNoASN reqNoIP = .badRequest "Unable to determine client IP" ∧
    GetClientIP svcNoASN reqNoIP = GetClientIP svcAllFail reqNoIP :=
  claimC10 svcNoASN svcAllFail reqNoIP (by decide)

/-- C1: when none of the three higher-priority headers yields a valid
public IP and `X-Forwarded-For` is set, the resolver returns the leftmost
comma-separated, whitespace-trimmed entry that is a valid public IP, and
when there is none it returns the first entry whenever that entry is a
syntactically valid IP. -/
theorem claimC1 (c : Request)
    (h1 : noYieldSingle (c.header "CF-Connecting-IP"))
    (h2 : noYieldSingle (c.header "True-Client-IP"))
    (h3 : noYieldSingle (c.header "X-Real-IP"))
    (h4 : c.header "X-Forwarded-For" ≠ "") :
    (∀ e, ((goSplit (c.header "X-Forwarded-For") ',').map trimSpace).find?
        (fun s => isValidPublicIP s) = some e → getClientIP c = e) ∧
    (((goSplit (c.header "X-Forwarded-For") ',').map trimSpace).find?
        (fun s => isValidPublicIP s) = none →
      ∀ f, ((goSplit (c.header "X-Forwarded-For") ',').map trimSpace).head? = some f →
        isValidIP f = true → getClientIP c = f) := by
  have hx : ∀ r, xffLookup (c.header "X-Forwarded-For") = r →
      getClientIP c = (match r with
        | some ip => ip
        | none =>
          let xForwarded := c.header "X-Forwarded"
          if xForwarded != "" && isValidPublicIP xForwarded then xForwarded
          else
            match forwardedLookup (c.header "Forwarded") with
            | some forValue => forValue
            | none => c.remoteAddr) := by
    intro r hr
    unfold getClientIP
    dsimp only
    rw [gate_false h1, gate_false h2, gate_false h3, hr]
    simp
  constructor
  · intro e hfind
    have : xffLookup (c.header "X-Forwarded-For") = some e := by
      unfold xffLookup
      rw [if_pos (show (c.header "X-Forwarded-For" != "") = true by simpa using h4)]
      dsimp only
      rw [xffScan_eq, hfind]
    simpa using hx _ this
  · intro hnone f hhead hvalid
    obtain ⟨f0, rest, hsplit⟩ :=
      List.exists_cons_of_ne_nil (goSplit_ne_nil (c.header "X-Forwarded-For") ',')
    have hf : f = trimSpace f0 := by
      rw [hsplit] at hhead
      simpa using hhead.symm
    have : xffLookup (c.header "X-Forwarded-For") = some f := by
      unfold xffLookup
      rw [if_pos (show (c.header "X-Forwarded-For" != "") = true by simpa using h4)]
      dsimp only
      rw [xffScan_eq, hnone, hsplit]
      subst hf
      simp [hvalid]
    simpa using hx _ this

/-- C1 witness: `X-Forwarded-For: 10.0.0.1, 8.8.8.8` resolves to the
public `8.8.8.8`. -/
theorem claimC1_witness : getClientIP reqOnlyXFF = "8.8.8.8" :=
  (claimC1 reqOnlyXFF (Or.inl rfl) (Or.inl rfl) (Or.inl rfl) (by decide)).1
    "8.8.8.8" (by decide)

/-- C3 counterexample: with no headers set and peer address `"not-an-ip"`,
the resolver returns a string that does not parse as any IP address, and
it has no failure channel — the string is returned silently. -/
theorem claimC3_counterexample :
    getClientIP reqNoIP = "not-an-ip" ∧
    isValidIP "not-an-ip" = false ∧
    parseIP "not-an-ip" = none := by
  refine ⟨by decide, by decide, by decide⟩

/-- C3 amended: the resolver's result is either a syntactically valid IP
string, or exactly the transport-layer fallback address (which may be
arbitrary); it never signals failure. -/
theorem claimC3_amended (c : Request) :
    isValidIP (getClientIP c) = true ∨ getClientIP c = c.remoteAddr := by
  unfold getClientIP
  dsimp only
  cases h1 : (c.header "CF-Connecting-IP" != "" &&
      isValidPublicIP (c.header "CF-Connecting-IP")) with
  | true =>
    simp only [h1, if_true]
    exact Or.inl (validOfPub ((Bool.and_eq_true _ _ |>.mp h1).2))
  | false =>
  simp only [h1, Bool.false_eq_true, if_false]
  cases h2 : (c.header "True-Client-IP" != "" &&
      isValidPublicIP (c.header "True-Client-IP")) with
  | true =>
    simp only [h2, if_true]
    exact Or.inl (validOfPub ((Bool.and_eq_true _ _ |>.mp h2).2))
  | false =>
  simp only [h2, Bool.false_eq_true, if_false]
  cases h3 : (c.header "X-Real-IP" != "" &&
      isValidPublicIP (c.header "X-Real-IP")) with
  | true =>
    simp only [h3, if_true]
    exact Or.inl (validOfPub ((Bool.and_eq_true _ _ |>.mp h3).2))
  | false =>
  simp only [h3, Bool.false_eq_true, if_false]
  cases hx : xffLookup (c.header "X-Forwarded-For") with
  | some ip =>
    simp only [hx]
    exact Or.inl (xffLookup_valid hx)
  | none =>
  simp only [hx]
  cases h4 : (c.header "X-Forwarded" != "" &&
      isValidPublicIP (c.header "X-Forwarded")) with
  | true =>
    simp only [h4, if_true]
    exact Or.inl (validOfPub ((Bool.and_eq_true _ _ |>.mp h4).2))
  | false =>
  simp only [h4, Bool.false_eq_true, if_false]
  cases hf : forwardedLookup (c.header "Forwarded") with
  | some forValue =>
    simp only [hf]
    exact Or.inl (validOfPub (forwardedLookup_pub hf))
  | none =>
    simp only [hf]
    exact Or.inr trivial

/-- C5 counterexample: a `Forwarded` value of two comma-separated
forwarded-elements whose second element carries a public `for=` address.
The claim's reading extracts `8.8.8.8`, but the resolver — which splits
on semicolons only — falls through to the peer address `9.9.9.9`. -/
theorem claimC5_counterexample :
    specForwardedFor (reqForwardedComma.header "Forwarded") = some "8.8.8.8" ∧
    getClientIP reqForwardedComma = "9.9.9.9" ∧
    reqForwardedComma.remoteAddr = "9.9.9.9" ∧
    ("9.9.9.9" : String) ≠ "8.8.8.8" := by
  refine ⟨by decide, by decide, by decide, by decide⟩

/-- C5 amended: when no earlier step of the trust policy yields a result
and `Forwarded` is set, the resolver splits the value on semicolons only,
and over the parts that (after whitespace trimming) start with `for=` —
with the prefix removed, then surrounding double quotes, then square
brackets — it returns the first candidate that is a valid public IP,
falling back to the peer address when there is none; `for=` parameters
of comma-separated forwarded-elements after the first are not separated
out. -/
theorem claimC5_amended (c : Request)
    (h1 : noYieldSingle (c.header "CF-Connecting-IP"))
    (h2 : noYieldSingle (c.header "True-Client-IP"))
    (h3 : noYieldSingle (c.header "X-Real-IP"))
    (h4 : xffNoYield (c.header "X-Forwarded-For"))
    (h5 : noYieldSingle (c.header "X-Forwarded"))
    (h6 : c.header "Forwarded" ≠ "") :
    (∀ v, (forwardedCands (c.header "Forwarded")).find? (fun s => isValidPublicIP s) =
        some v → getClientIP c = v) ∧
    ((forwardedCands (c.header "Forwarded")).find? (fun s => isValidPublicIP s) =
        none → getClientIP c = c.remoteAddr) := by
  have hbase : ∀ r, forwardedLookup (c.header "Forwarded") = r →
      getClientIP c = (match r with
        | some forValue => forValue
        | none => c.remoteAddr) := by
    intro r hr
    unfold getClientIP
    dsimp only
    rw [gate_false h1, gate_false h2, gate_false h3, xffLookup_none h4,
      gate_false h5, hr]
    simp
  have hfwd : ∀ r, (forwardedCands (c.header "Forwarded")).find?
      (fun s => isValidPublicIP s) = r → forwardedLookup (c.header "Forwarded") = r := by
    intro r hr
    unfold forwardedLookup
    rw [if_pos (show (c.header "Forwarded" != "") = true by simpa using h6),
      forwardedScan_eq]
    exact hr
  constructor
  · intro v hv
    simpa using hbase _ (hfwd _ hv)
  · intro hn
    simpa using hbase _ (hfwd _ hn)

/-- C5 amended, witness: one forwarded-element with a quoted, bracketed
IPv6 `for=` parameter. -/
theorem claimC5_witness : getClientIP reqForwardedQuoted = "2001:4860:4860::8888" :=
  (claimC5_amended reqForwardedQuoted (Or.inl rfl) (Or.inl rfl) (Or.inl rfl)
    (Or.inl rfl) (Or.inl rfl) (by decide)).1 "2001:4860:4860::8888" (by decide)

/-- C6 counterexample: only the `Client-IP` header is set, to a valid
public address; the claim's reading returns `8.8.8.8`, but the resolver
never consults that header and returns the peer address `203.0.113.7`. -/
theorem claimC6_counterexample :
    reqClientIPHeader.header "Client-IP" = "8.8.8.8" ∧
    isValidPublicIP "8.8.8.8" = true ∧
    getClientIP reqClientIPHeader = "203.0.113.7" ∧
    ("203.0.113.7" : String) ≠ "8.8.8.8" := by
  refine ⟨by decide, by decide, by decide, by decide⟩

/-- C6 amended: the only secondary forwarding header the resolver
consults is the generic `X-Forwarded` alias, gated on public-IP
validity; `Client-IP`, `X-Cluster-Client-IP` and
`X-Original-Forwarded-For` are never consulted — setting any of them to
any value never changes the result. -/
theorem claimC6_amended :
    (∀ c : Request, noYieldSingle (c.header "CF-Connecting-IP") →
      noYieldSingle (c.header "True-Client-IP") →
      noYieldSingle (c.header "X-Real-IP") →
      xffNoYield (c.header "X-Forwarded-For") →
      c.header "X-Forwarded" ≠ "" →
      isValidPublicIP (c.header "X-Forwarded") = true →
      getClientIP c = c.header "X-Forwarded") ∧
    (∀ (c : Request) (name v : String),
      name ∈ (["Client-IP", "X-Cluster-Client-IP", "X-Original-Forwarded-For"] :
        List String) →
      getClientIP (setHeader c name v) = getClientIP c) := by
  constructor
  · intro c h1 h2 h3 h4 h5 h6
    unfold getClientIP
    dsimp only
    rw [gate_false h1, gate_false h2, gate_false h3, xffLookup_none h4,
      gate_true h5 h6]
    simp
  · intro c name v hname
    have hread : ∀ n : String, n ≠ name →
        (setHeader c name v).header n = c.header n := by
      intro n hn
      simp [setHeader, hn]
    fin_cases hname <;>
      · unfold getClientIP
        rw [hread _ (by decide), hread _ (by decide), hread _ (by decide),
          hread _ (by decide), hread _ (by decide), hread _ (by decide)]
        rfl

/-- C6 amended, witness: only `X-Forwarded` set, to a public address. -/
theorem claimC6_witness : getClientIP reqXForwarded = "8.8.8.8" :=
  (claimC6_amended.1 reqXForwarded (Or.inl rfl) (Or.inl rfl) (Or.inl rfl)
    (Or.inl rfl) (by decide) (by decide)).trans (by decide)

/-! ## Well-formedness of parsed addresses: 16 bytes, all below 256 -/

theorem parseV4Field_lt {f : List Char} {n : Nat} (h : parseV4Field f = some n) :
    n < 256 := by
  unfold parseV4Field at h
  split at h
  · dsimp only at h
    split at h
    · rename_i hle
      cases h
      omega
    · cases h
  · cases h

theorem list_len4 {l : List Nat} (h : l.length = 4) :
    ∃ a b c d, l = [a, b, c, d] := by
  rcases l with _ | ⟨a, _ | ⟨b, _ | ⟨c, _ | ⟨d, _ | e⟩⟩⟩⟩ <;> simp_all

theorem parseIPv4_wf {s : String} {l : List Nat} (h : parseIPv4 s = some l) :
    l.length = 4 ∧ ∀ b ∈ l, b < 256 := by
  unfold parseIPv4 at h
  split at h
  · rename_i a b c d heq
    cases h
    have hmem : ∀ x : Nat, some x ∈ (splitChar '.' s.toList).map parseV4Field → x < 256 := by
      intro x hx
      obtain ⟨f, _, hf⟩ := List.mem_map.mp hx
      exact parseV4Field_lt hf
    refine ⟨rfl, ?_⟩
    intro x hx
    simp only [List.mem_cons, List.not_mem_nil, or_false] at hx
    rcases hx with rfl | rfl | rfl | rfl
    · exact hmem _ (by rw [heq]; simp)
    · exact hmem _ (by rw [heq]; simp)
    · exact hmem _ (by rw [heq]; simp)
    · exact hmem _ (by rw [heq]; simp)
  · cases h

theorem v6loop_wf (fuel : Nat) : ∀ (s : List Char) (acc : List Nat) (ell : Option Nat)
    (out : List Nat × Option Nat), v6loop fuel s acc ell = some out →
    acc.length % 2 = 0 → acc.length ≤ 16 → (∀ b ∈ acc, b < 256) →
    (∀ e, ell = some e → e ≤ acc.length) →
    out.1.length ≤ 16 ∧ (∀ b ∈ out.1, b < 256) ∧
      ∀ e, out.2 = some e → e ≤ out.1.length := by
  induction fuel with
  | zero =>
    intro s acc ell out h
    cases h
  | succ n ih =>
    intro s acc ell out h heven hlen hb hell
    unfold v6loop at h
    by_cases hfull : acc.length ≥ 16
    · rw [if_pos hfull] at h
      by_cases hs : s = []
      · rw [if_pos hs] at h
        cases h
        exact ⟨hlen, hb, hell⟩
      · rw [if_neg hs] at h
        cases h
    · rw [if_neg hfull] at h
      dsimp only at h
      by_cases hrun : s.takeWhile (fun c => (hexVal c).isSome) = []
      · rw [if_pos hrun] at h
        cases h
      · rw [if_neg hrun] at h
        by_cases hof : (s.takeWhile (fun c => (hexVal c).isSome)).foldl
            (fun a c => a * 16 + (hexVal c).getD 0) 0 > 65535
        · rw [if_pos hof] at h
          cases h
        · rw [if_neg hof] at h
          have hdiv : (s.takeWhile (fun c => (hexVal c).isSome)).foldl
              (fun a c => a * 16 + (hexVal c).getD 0) 0 / 256 < 256 := by omega
          have hmod : (s.takeWhile (fun c => (hexVal c).isSome)).foldl
              (fun a c => a * 16 + (hexVal c).getD 0) 0 % 256 < 256 := by omega
          have hb2 : ∀ x ∈ acc ++ [(s.takeWhile (fun c => (hexVal c).isSome)).foldl
              (fun a c => a * 16 + (hexVal c).getD 0) 0 / 256,
              (s.takeWhile (fun c => (hexVal c).isSome)).foldl
              (fun a c => a * 16 + (hexVal c).getD 0) 0 % 256], x < 256 := by
            intro x hx
            rcases List.mem_append.mp hx with hx | hx
            · exact hb x hx
            · simp only [List.mem_cons, List.not_mem_nil, or_false] at hx
              rcases hx with rfl | rfl
              · omega
              · omega
          by_cases hdot : (s.dropWhile (fun c => (hexVal c).isSome)).head? = some '.'
          · rw [if_pos hdot] at h
            by_cases hnd : ell = none ∧ acc.length ≠ 12
            · rw [if_pos hnd] at h
              cases h
            · rw [if_neg hnd] at h
              by_cases hroom : acc.length + 4 > 16
              · rw [if_pos hroom] at h
                cases h
              · rw [if_neg hroom] at h
                cases hip4 : parseIPv4 (String.mk s) with
                | none =>
                  rw [hip4] at h
                  cases h
                | some ip4 =>
                  rw [hip4] at h
                  cases h
                  obtain ⟨hl4, hb4⟩ := parseIPv4_wf hip4
                  refine ⟨by simp [hl4]; omega, ?_, ?_⟩
                  · intro x hx
                    rcases List.mem_append.mp hx with hx | hx
                    · exact hb x hx
                    · exact hb4 x hx
                  · intro e he
                    have := hell e he
                    simp
                    omega
          · rw [if_neg hdot] at h
            rcases hrest : s.dropWhile (fun c => (hexVal c).isSome) with _ | ⟨c0, s1⟩
            · rw [hrest] at h
              dsimp only at h
              cases h
              refine ⟨by simp; omega, hb2, ?_⟩
              intro e he
              have := hell e he
              simp
              omega
            · rw [hrest] at h
              dsimp only at h
              by_cases hc0 : c0 = ':'
              · rw [if_pos hc0] at h
                by_cases hs1 : s1 = []
                · rw [if_pos hs1] at h
                  cases h
                · rw [if_neg hs1] at h
                  rcases s1 with _ | ⟨c1, s2⟩
                  · exact absurd rfl hs1
                  · dsimp only at h
                    by_cases hc1 : c1 = ':'
                    · rw [if_pos hc1] at h
                      by_cases hellsome : ell ≠ none
                      · rw [if_pos hellsome] at h
                        cases h
                      · rw [if_neg hellsome] at h
                        by_cases hs2 : s2 = []
                        · rw [if_pos hs2] at h
                          cases h
                          refine ⟨by simp; omega, hb2, ?_⟩
                          intro e he
                          cases he
                          simp
                        · rw [if_neg hs2] at h
                          refine ih _ _ _ _ h ?_ ?_ hb2 ?_
                          · simp
                            omega
                          · simp
                            omega
                          · intro e he
                            cases he
                            simp
                    · rw [if_neg hc1] at h
                      refine ih _ _ _ _ h ?_ ?_ hb2 ?_
                      · simp
                        omega
                      · simp
                        omega
                      · intro e he
                        have := hell e he
                        simp
                        omega
              · rw [if_neg hc0] at h
                cases h

theorem v6finish_wf {acc : List Nat} {ell : Option Nat} {ip : List Nat}
    (h : v6finish (some (acc, ell)) = some ip)
    (hlen : acc.length ≤ 16) (hb : ∀ b ∈ acc, b < 256)
    (hell : ∀ e, ell = some e → e ≤ acc.length) :
    ip.length = 16 ∧ ∀ b ∈ ip, b < 256 := by
  unfold v6finish at h
  dsimp only at h
  by_cases hlt : acc.length < 16
  · rw [if_pos hlt] at h
    cases ell with
    | none => cases h
    | some e =>
      dsimp only at h
      cases h
      have he : e ≤ acc.length := hell e rfl
      constructor
      · simp only [List.length_append, List.length_take, List.length_replicate,
          List.length_drop]
        omega
      · intro x hx
        rcases List.mem_append.mp hx with hx | hx
        · rcases List.mem_append.mp hx with hx | hx
          · exact hb x (List.take_subset _ _ hx)
          · rw [List.eq_of_mem_replicate hx]
            omega
        · exact hb x (List.drop_subset _ _ hx)
  · rw [if_neg hlt] at h
    cases ell with
    | some e => cases h
    | none =>
      dsimp only at h
      cases h
      exact ⟨by omega, hb⟩

theorem parseIPv6_wf {s : String} {ip : List Nat} (h : parseIPv6 s = some ip) :
    ip.length = 16 ∧ ∀ b ∈ ip, b < 256 := by
  unfold parseIPv6 at h
  split at h
  · rename_i t heq
    split at h
    · cases h
      exact ⟨by simp, fun b hb => by rw [List.eq_of_mem_replicate hb]; omega⟩
    · cases hv : v6loop t.length t [] (some 0) with
      | none =>
        rw [hv] at h
        cases h
      | some out =>
        rw [hv] at h
        obtain ⟨h1, h2, h3⟩ := v6loop_wf t.length t [] (some 0) out hv (by simp)
          (by simp) (by simp) (by rintro e ⟨rfl⟩; simp)
        cases out with
        | mk accf ellf => exact v6finish_wf h h1 h2 h3
  · rename_i hne
    cases hv : v6loop s.toList.length s.toList [] none with
    | none =>
      rw [hv] at h
      cases h
    | some out =>
      rw [hv] at h
      obtain ⟨h1, h2, h3⟩ := v6loop_wf s.toList.length s.toList [] none out hv
        (by simp) (by simp) (by simp) (by rintro e ⟨⟩)
      cases out with
      | mk accf ellf => exact v6finish_wf h h1 h2 h3

theorem parseIP_wf {s : String} {ip : List Nat} (h : parseIP s = some ip) :
    ip.length = 16 ∧ ∀ b ∈ ip, b < 256 := by
  unfold parseIP at h
  split at h
  · cases hv : parseIPv4 s with
    | none =>
      rw [hv] at h
      cases h
    | some l =>
      rw [hv] at h
      cases h
      obtain ⟨hl, hb⟩ := parseIPv4_wf hv
      constructor
      · simp [v4InV6, hl]
      · intro x hx
        unfold v4InV6 at hx
        rcases List.mem_append.mp hx with hx | hx
        · rcases List.mem_append.mp hx with hx | hx
          · rw [List.eq_of_mem_replicate hx]
            omega
          · simp only [List.mem_cons, List.not_mem_nil, or_false] at hx
            rcases hx with rfl | rfl <;> omega
        · exact hb x hx
  · exact parseIPv6_wf h
  · cases h

/-! ## Masked comparison against the eight private networks -/

theorem land255 {b : Nat} (h : b < 256) : b &&& 255 = b :=
  (by decide : ∀ b < 256, b &&& 255 = b) b h

theorem land240 {b : Nat} (h : b < 256) : b &&& 240 = 16 ↔ 16 ≤ b ∧ b ≤ 31 :=
  (by decide : ∀ b < 256, (b &&& 240 = 16 ↔ 16 ≤ b ∧ b ≤ 31)) b h

theorem land254 {b : Nat} (h : b < 256) : b &&& 254 = 252 ↔ b = 252 ∨ b = 253 :=
  (by decide : ∀ b < 256, (b &&& 254 = 252 ↔ b = 252 ∨ b = 253)) b h

theorem land192 {b : Nat} (h : b < 256) : b &&& 192 = 128 ↔ 128 ≤ b ∧ b ≤ 191 :=
  (by decide : ∀ b < 256, (b &&& 192 = 128 ↔ 128 ≤ b ∧ b ≤ 191)) b h

theorem maskedEq_zeros : ∀ (as bs : List Nat) (n : Nat), as.length = bs.length →
    as.length ≤ n → maskedEq as bs (List.replicate n 0) = true := by
  intro as
  induction as with
  | nil =>
    intro bs n hl _
    cases bs with
    | nil => rfl
    | cons b bs => cases hl
  | cons a as ih =>
    intro bs n hl hn
    cases bs with
    | nil => cases hl
    | cons b bs =>
      cases n with
      | zero => cases hn
      | succ m =>
        simp only [List.replicate, maskedEq, Nat.and_zero]
        refine ih bs m ?_ ?_
        · simpa using hl
        · simp only [List.length_cons] at hn
          omega

theorem maskedEq_mask255 : ∀ (as bs : List Nat) (n : Nat), as.length = bs.length →
    as.length ≤ n → (∀ x ∈ as, x < 256) → (∀ x ∈ bs, x < 256) →
    (maskedEq as bs (List.replicate n 255) = true ↔ as = bs) := by
  intro as
  induction as with
  | nil =>
    intro bs n hl _ _ _
    cases bs with
    | nil => simp [maskedEq]
    | cons b bs => cases hl
  | cons a as ih =>
    intro bs n hl hn ha hb
    cases bs with
    | nil => cases hl
    | cons b bs =>
      cases n with
      | zero => cases hn
      | succ m =>
        have ha0 : a < 256 := ha a (by simp)
        have hb0 : b < 256 := hb b (by simp)
        have hlen2 : as.length = bs.length := by simpa using hl
        have hn2 : as.length ≤ m := by
          simp only [List.length_cons] at hn
          omega
        have ihr := ih bs m hlen2 hn2
          (fun x hx => ha x (List.mem_cons_of_mem _ hx))
          (fun x hx => hb x (List.mem_cons_of_mem _ hx))
        simp only [List.replicate, maskedEq, land255 ha0, land255 hb0,
          Bool.and_eq_true, beq_iff_eq, List.cons.injEq, ihr]

theorem contains_v4net (n0 n1 n2 n3 m0 m1 m2 m3 : Nat) {ip : List Nat}
    {a b c d : Nat} (h4 : to4 ip = some [a, b, c, d]) :
    contains ⟨[n0, n1, n2, n3], [m0, m1, m2, m3]⟩ ip =
      ((n0 &&& m0 == a &&& m0) && ((n1 &&& m1 == b &&& m1) &&
       ((n2 &&& m2 == c &&& m2) && ((n3 &&& m3 == d &&& m3) && true)))) := by
  unfold contains
  rw [show networkNumberAndMask ⟨[n0, n1, n2, n3], [m0, m1, m2, m3]⟩ =
      some ([n0, n1, n2, n3], [m0, m1, m2, m3]) from rfl, h4]
  rfl

theorem contains_v4net_none (n0 n1 n2 n3 m0 m1 m2 m3 : Nat) {ip : List Nat}
    (h4 : to4 ip = none) (hlen : ip.length = 16) :
    contains ⟨[n0, n1, n2, n3], [m0, m1, m2, m3]⟩ ip = false := by
  unfold contains
  rw [show networkNumberAndMask ⟨[n0, n1, n2, n3], [m0, m1, m2, m3]⟩ =
      some ([n0, n1, n2, n3], [m0, m1, m2, m3]) from rfl, h4]
  dsimp only
  simp [hlen]

theorem contains_v6_of_some {ip x : List Nat} (h4 : to4 ip = some x) (hx : x.length = 4)
    (addr mask : List Nat) (hnn : networkNumberAndMask ⟨addr, mask⟩ = some (addr, mask))
    (h16 : addr.length = 16) :
    contains ⟨addr, mask⟩ ip = false := by
  unfold contains
  rw [hnn, h4]
  dsimp only
  simp [hx, h16]

theorem isPrivate_core (ip : List Nat) (hlen : ip.length = 16)
    (hb : ∀ b ∈ ip, b < 256) :
    (privateRanges.any fun cidr =>
      match parseCIDR cidr with
      | none => false
      | some network => contains network ip) = true ↔ specPrivate ip := by
  have hred : (privateRanges.any fun cidr =>
      match parseCIDR cidr with
      | none => false
      | some network => contains network ip) =
      (contains ⟨[10, 0, 0, 0], [255, 0, 0, 0]⟩ ip ||
       (contains ⟨[172, 16, 0, 0], [255, 240, 0, 0]⟩ ip ||
       (contains ⟨[192, 168, 0, 0], [255, 255, 0, 0]⟩ ip ||
       (contains ⟨[127, 0, 0, 0], [255, 0, 0, 0]⟩ ip ||
       (contains ⟨[169, 254, 0, 0], [255, 255, 0, 0]⟩ ip ||
       (contains ⟨List.replicate 15 0 ++ [1], List.replicate 16 255⟩ ip ||
       (contains ⟨252 :: List.replicate 15 0, 254 :: List.replicate 15 0⟩ ip ||
       (contains ⟨254 :: 128 :: List.replicate 14 0,
          255 :: 192 :: List.replicate 14 0⟩ ip || false)))))))) := by
    rfl
  rw [hred]
  simp only [Bool.or_eq_true, Bool.false_eq_true, or_false]
  cases h4 : to4 ip with
  | some x =>
    have hnot4 : ¬ ip.length = 4 := by omega
    have hxdt : x = ip.drop 12 := by
      unfold to4 at h4
      rw [if_neg hnot4] at h4
      split at h4
      · cases h4
        rfl
      · cases h4
    have hx4 : x.length = 4 := by rw [hxdt]; simp [hlen]
    obtain ⟨a, b, c', d, hxeq⟩ := list_len4 hx4
    subst hxeq
    have ha : a < 256 := hb a (List.drop_subset 12 ip (by rw [← hxdt]; simp))
    have hb1 : b < 256 := hb b (List.drop_subset 12 ip (by rw [← hxdt]; simp))
    rw [contains_v4net 10 0 0 0 255 0 0 0 h4,
        contains_v4net 172 16 0 0 255 240 0 0 h4,
        contains_v4net 192 168 0 0 255 255 0 0 h4,
        contains_v4net 127 0 0 0 255 0 0 0 h4,
        contains_v4net 169 254 0 0 255 255 0 0 h4,
        contains_v6_of_some h4 rfl (List.replicate 15 0 ++ [1])
          (List.replicate 16 255) (by decide) (by decide),
        contains_v6_of_some h4 rfl (252 :: List.replicate 15 0)
          (254 :: List.replicate 15 0) (by decide) (by decide),
        contains_v6_of_some h4 rfl (254 :: 128 :: List.replicate 14 0)
          (255 :: 192 :: List.replicate 14 0) (by decide) (by decide)]
    have h240 : ((16 : Nat) = b &&& 240) ↔ (16 ≤ b ∧ b ≤ 31) := by
      rw [show ((16 : Nat) = b &&& 240) ↔ (b &&& 240 = 16) from eq_comm]
      exact land240 hb1
    simp only [Bool.and_eq_true, Bool.and_true, beq_iff_eq, Nat.and_zero,
      land255 ha, land255 hb1,
      show (10 : Nat) &&& 255 = 10 from by decide,
      show (172 : Nat) &&& 255 = 172 from by decide,
      show (192 : Nat) &&& 255 = 192 from by decide,
      show (127 : Nat) &&& 255 = 127 from by decide,
      show (169 : Nat) &&& 255 = 169 from by decide,
      show (168 : Nat) &&& 255 = 168 from by decide,
      show (254 : Nat) &&& 255 = 254 from by decide,
      show (16 : Nat) &&& 240 = 16 from by decide,
      h240, eq_self_iff_true, and_true, true_and,
      Bool.false_eq_true, or_false, false_or,
      specPrivate, h4, Option.some.injEq, specPrivateV4]
    constructor
    · rintro (h | h | h | h | h) <;>
        exact Or.inl ⟨[a, b, c', d], rfl, by dsimp only [specPrivateV4]; omega⟩
    · rintro (⟨l, hl, hspec⟩ | ⟨hnone, _⟩)
      · cases hl
        revert hspec
        dsimp only [specPrivateV4]
        omega
      · cases hnone
  | none =>
    rcases ip with _ | ⟨b0, _ | ⟨b1, tail⟩⟩
    · simp at hlen
    · simp at hlen
    · have htail : tail.length = 14 := by
        simp only [List.length_cons] at hlen
        omega
      have hb0 : b0 < 256 := hb b0 (by simp)
      have hb1 : b1 < 256 := hb b1 (by simp)
      rw [contains_v4net_none 10 0 0 0 255 0 0 0 h4 hlen,
          contains_v4net_none 172 16 0 0 255 240 0 0 h4 hlen,
          contains_v4net_none 192 168 0 0 255 255 0 0 h4 hlen,
          contains_v4net_none 127 0 0 0 255 0 0 0 h4 hlen,
          contains_v4net_none 169 254 0 0 255 255 0 0 h4 hlen]
      have h61 : (contains ⟨List.replicate 15 0 ++ [1], List.replicate 16 255⟩
          (b0 :: b1 :: tail) = true) ↔ b0 :: b1 :: tail = List.replicate 15 0 ++ [1] := by
        unfold contains
        rw [show networkNumberAndMask ⟨List.replicate 15 0 ++ [1], List.replicate 16 255⟩ =
            some (List.replicate 15 0 ++ [1], List.replicate 16 255) from rfl, h4]
        dsimp only
        rw [show ((List.replicate 15 0 ++ [1] : List Nat)).length = 16 from rfl, hlen]
        simp only [beq_self_eq_true, Bool.true_and]
        rw [maskedEq_mask255 _ _ _ (by simp [hlen]) (by decide) (by decide) hb]
        exact eq_comm
      have h62 : (contains ⟨252 :: List.replicate 15 0, 254 :: List.replicate 15 0⟩
          (b0 :: b1 :: tail) = true) ↔ (b0 = 252 ∨ b0 = 253) := by
        unfold contains
        rw [show networkNumberAndMask ⟨252 :: List.replicate 15 0, 254 :: List.replicate 15 0⟩ =
            some (252 :: List.replicate 15 0, 254 :: List.replicate 15 0) from rfl, h4]
        dsimp only
        rw [show maskedEq (252 :: List.replicate 15 0) (b0 :: b1 :: tail)
              (254 :: List.replicate 15 0) =
            ((252 &&& 254 == b0 &&& 254) &&
              maskedEq (List.replicate 15 0) (b1 :: tail) (List.replicate 15 0)) from rfl]
        rw [maskedEq_zeros _ _ _ (by simp [htail]) (by simp)]
        rw [show ((252 :: List.replicate 15 0 : List Nat)).length = 16 from rfl, hlen]
        simp only [beq_self_eq_true, Bool.true_and, Bool.and_true, beq_iff_eq,
          show (252 : Nat) &&& 254 = 252 from by decide]
        rw [show ((252 : Nat) = b0 &&& 254) ↔ (b0 &&& 254 = 252) from eq_comm]
        exact land254 hb0
      have h63 : (contains ⟨254 :: 128 :: List.replicate 14 0,
          255 :: 192 :: List.replicate 14 0⟩ (b0 :: b1 :: tail) = true) ↔
          (b0 = 254 ∧ 128 ≤ b1 ∧ b1 ≤ 191) := by
        unfold contains
        rw [show networkNumberAndMask ⟨254 :: 128 :: List.replicate 14 0,
              255 :: 192 :: List.replicate 14 0⟩ =
            some (254 :: 128 :: List.replicate 14 0,
              255 :: 192 :: List.replicate 14 0) from rfl, h4]
        dsimp only
        rw [show maskedEq (254 :: 128 :: List.replicate 14 0) (b0 :: b1 :: tail)
              (255 :: 192 :: List.replicate 14 0) =
            ((254 &&& 255 == b0 &&& 255) && ((128 &&& 192 == b1 &&& 192) &&
              maskedEq (List.replicate 14 0) tail (List.replicate 14 0))) from rfl]
        rw [maskedEq_zeros _ _ _ (by simp [htail]) (by simp)]
        rw [show ((254 :: 128 :: List.replicate 14 0 : List Nat)).length = 16 from rfl, hlen]
        simp only [beq_self_eq_true, Bool.true_and, Bool.and_true, Bool.and_eq_true,
          beq_iff_eq, land255 hb0,
          show (254 : Nat) &&& 255 = 254 from by decide,
          show (128 : Nat) &&& 192 = 128 from by decide]
        rw [show ((254 : Nat) = b0) ↔ (b0 = 254) from eq_comm,
          show ((128 : Nat) = b1 &&& 192) ↔ (b1 &&& 192 = 128) from eq_comm,
          land192 hb1]
      rw [h61, h62, h63]
      simp only [Bool.false_eq_true, false_or]
      unfold specPrivate specPrivateV6
      constructor
      · rintro (h | h | h)
        · exact Or.inr ⟨h4, Or.inl h⟩
        · exact Or.inr ⟨h4, Or.inr (Or.inl ⟨b0, b1 :: tail, rfl, h⟩)⟩
        · exact Or.inr ⟨h4, Or.inr (Or.inr ⟨b1, tail, by rw [h.1], h.2.1, h.2.2⟩)⟩
      · rintro (⟨l, hl, _⟩ | ⟨_, hv6⟩)
        · rw [h4] at hl
          cases hl
        · rcases hv6 with h | ⟨b0x, t, heq, hp⟩ | ⟨b1x, t, heq, hp1, hp2⟩
          · exact Or.inl h
          · injection heq with h1 _
            subst h1
            exact Or.inr (Or.inl hp)
          · injection heq with h1 hrest
            injection hrest with h2 _
            subst h1
            subst h2
            exact Or.inr (Or.inr ⟨rfl, hp1, hp2⟩)

/-- C4: the resolver's private/public classification decides the six
sample addresses as the spec states, and an address is classified
private exactly when it lies in 10.0.0.0/8, 172.16.0.0/12,
192.168.0.0/16, 127.0.0.0/8, 169.254.0.0/16, ::1/128, fc00::/7 or
fe80::/10 (IPv4-mapped addresses compared through their 4-byte form). -/
theorem claimC4 :
    (isPrivateIP "169.254.0.1" = true ∧ isPrivateIP "127.0.0.1" = true ∧
     isPrivateIP "fe80::1" = true ∧ isPrivateIP "fc00::1" = true ∧
     isValidPublicIP "8.8.8.8" = true ∧
     isValidPublicIP "2001:4860:4860::8888" = true) ∧
    ∀ s, isPrivateIP s = true ↔ ∃ ip, parseIP s = some ip ∧ specPrivate ip := by
  constructor
  · exact ⟨by decide, by decide, by decide, by decide, by decide, by decide⟩
  · intro s
    unfold isPrivateIP
    cases hp : parseIP s with
    | none => simp [hp]
    | some ip =>
      obtain ⟨hlen, hb⟩ := parseIP_wf hp
      rw [isPrivate_core ip hlen hb]
      constructor
      · intro h
        exact ⟨ip, rfl, h⟩
      · rintro ⟨ip2, hip2, h⟩
        cases hip2
        exact h
